import Mathlib

/-!
Verification of the TRM referral-platform Python SDK core
(trm_sdk/webhooks.py and trm_sdk/client.py) via a shallow embedding.

Conventions of the embedding:
* Python `bytes` values are `List Nat` with entries intended below 256.
* Python `str` values are lists of Unicode code points (`List Nat`);
  Python string operations (concatenation, equality, membership, split)
  become list operations on code points.
* Library primitives external to the repository (HMAC-SHA256, the JSON
  parser, the HTTP transport) are parameters of the embedded functions;
  the repository code never inspects their internals, only their results.
* `bytes.decode("utf-8")` and `str.encode("utf-8")` are modelled by a
  strict UTF-8 decoder/encoder implemented below (rejecting surrogates,
  overlong forms and code points above 0x10FFFF, exactly as CPython does
  in strict mode).
-/

/-- Python bytes: a list of byte values. -/
abbrev Bytes := List Nat

/-- Python str: a list of Unicode code points. -/
abbrev PyStr := List Nat

/-- A Unicode scalar value: a code point that is not a surrogate and is
at most 0x10FFFF.  Python `str.encode("utf-8")` succeeds exactly when
every code point of the string satisfies this. -/
def scalarValue (c : Nat) : Bool :=
  decide (c < 0xD800) || (decide (0xDFFF < c) && decide (c ≤ 0x10FFFF))

/-- All code points of the string are encodable scalar values. -/
def validStr (s : PyStr) : Bool := s.all scalarValue

/-- UTF-8 encoding of a single scalar value (1 to 4 bytes). -/
def encodeChar (c : Nat) : List Nat :=
  if c < 0x80 then [c]
  else if c < 0x800 then [0xC0 + c / 64, 0x80 + c % 64]
  else if c < 0x10000 then
    [0xE0 + c / 4096, 0x80 + c / 64 % 64, 0x80 + c % 64]
  else
    [0xF0 + c / 262144, 0x80 + c / 4096 % 64, 0x80 + c / 64 % 64, 0x80 + c % 64]

/-- UTF-8 encoding of a whole string, as `str.encode("utf-8")` produces
on encodable input. -/
def utf8Encode (s : PyStr) : Bytes := s.flatMap encodeChar

/-- `str.encode("utf-8")`: fails (raises UnicodeEncodeError) when the
string holds a lone surrogate or an out-of-range code point. -/
def utf8EncodeStrict (s : PyStr) : Option Bytes :=
  if validStr s then some (utf8Encode s) else none

/-- Is the byte a UTF-8 continuation byte (0x80..0xBF)? -/
def isCont (b : Nat) : Bool := decide (0x80 ≤ b) && decide (b < 0xC0)

/-- Strict UTF-8 decoding, fuelled to make the recursion structural; the
fuel is always at least the length of the remaining input.  Returns the
decoded code points, or `none` on any malformed input (as the strict
CPython `bytes.decode("utf-8")`, which raises UnicodeDecodeError). -/
def utf8DecodeAux : Nat → Bytes → Option (List Nat)
  | _, [] => some []
  | 0, _ :: _ => none
  | f + 1, b :: rest =>
    if b < 0x80 then
      (utf8DecodeAux f rest).map (fun cs => b :: cs)
    else if b < 0xC2 then none
    else if b < 0xE0 then
      match rest with
      | b1 :: rest2 =>
        if isCont b1 then
          (utf8DecodeAux f rest2).map (fun cs => ((b - 0xC0) * 64 + (b1 - 0x80)) :: cs)
        else none
      | [] => none
    else if b < 0xF0 then
      match rest with
      | b1 :: b2 :: rest3 =>
        if isCont b1 && isCont b2 then
          let c := (b - 0xE0) * 4096 + (b1 - 0x80) * 64 + (b2 - 0x80)
          if decide (0x800 ≤ c) && !(decide (0xD800 ≤ c) && decide (c < 0xE000)) then
            (utf8DecodeAux f rest3).map (fun cs => c :: cs)
          else none
        else none
      | _ => none
    else if b < 0xF5 then
      match rest with
      | b1 :: b2 :: b3 :: rest4 =>
        if isCont b1 && isCont b2 && isCont b3 then
          let c := (b - 0xF0) * 262144 + (b1 - 0x80) * 4096 + (b2 - 0x80) * 64 + (b3 - 0x80)
          if decide (0x10000 ≤ c) && decide (c ≤ 0x10FFFF) then
            (utf8DecodeAux f rest4).map (fun cs => c :: cs)
          else none
        else none
      | _ => none
    else none

/-- `bytes.decode("utf-8")`, strict: `none` models UnicodeDecodeError. -/
def utf8Decode (bs : Bytes) : Option (List Nat) := utf8DecodeAux bs.length bs

theorem utf8Encode_cons (c : Nat) (s : PyStr) :
    utf8Encode (c :: s) = encodeChar c ++ utf8Encode s := by
  simp [utf8Encode]

/-- Soundness of the strict decoder: a successful decode re-encodes to
exactly the input bytes, and every decoded code point is a scalar value. -/
theorem utf8DecodeAux_sound :
    ∀ f bs cs, utf8DecodeAux f bs = some cs →
      utf8Encode cs = bs ∧ validStr cs = true := by
  intro f
  induction f with
  | zero =>
    intro bs cs h
    cases bs with
    | nil =>
      simp only [utf8DecodeAux, Option.some.injEq] at h
      subst h
      exact ⟨rfl, rfl⟩
    | cons b rest => exact absurd h (by simp [utf8DecodeAux])
  | succ f ih =>
    intro bs cs h
    cases bs with
    | nil =>
      simp only [utf8DecodeAux, Option.some.injEq] at h
      subst h
      exact ⟨rfl, rfl⟩
    | cons b rest =>
      simp only [utf8DecodeAux] at h
      by_cases h1 : b < 0x80
      · rw [if_pos h1, Option.map_eq_some'] at h
        obtain ⟨cs1, hd, rfl⟩ := h
        obtain ⟨he, hv⟩ := ih rest cs1 hd
        refine ⟨?_, ?_⟩
        · rw [utf8Encode_cons, he]
          have hch : encodeChar b = [b] := by rw [encodeChar, if_pos h1]
          rw [hch]
          rfl
        · simp only [validStr, List.all_cons] at hv ⊢
          rw [hv]
          simp [scalarValue]
          omega
      · rw [if_neg h1] at h
        by_cases h2 : b < 0xC2
        · rw [if_pos h2] at h
          exact absurd h (by simp)
        · rw [if_neg h2] at h
          by_cases h3 : b < 0xE0
          · rw [if_pos h3] at h
            cases rest with
            | nil => exact absurd h (by simp)
            | cons b1 rest2 =>
              simp only at h
              by_cases hc1 : isCont b1
              · rw [if_pos hc1, Option.map_eq_some'] at h
                obtain ⟨cs1, hd, rfl⟩ := h
                obtain ⟨he, hv⟩ := ih rest2 cs1 hd
                have hb1 : 0x80 ≤ b1 ∧ b1 < 0xC0 := by
                  simpa [isCont] using hc1
                refine ⟨?_, ?_⟩
                · rw [utf8Encode_cons, he]
                  have hch : encodeChar ((b - 0xC0) * 64 + (b1 - 0x80)) = [b, b1] := by
                    rw [encodeChar, if_neg (by omega), if_pos (by omega)]
                    have e1 : ((b - 0xC0) * 64 + (b1 - 0x80)) / 64 = b - 0xC0 := by omega
                    have e2 : ((b - 0xC0) * 64 + (b1 - 0x80)) % 64 = b1 - 0x80 := by omega
                    rw [e1, e2]
                    simp only [List.cons.injEq, and_true]
                    omega
                  rw [hch]
                  rfl
                · simp only [validStr, List.all_cons] at hv ⊢
                  rw [hv]
                  simp [scalarValue]
                  omega
              · rw [if_neg hc1] at h
                exact absurd h (by simp)
          · rw [if_neg h3] at h
            by_cases h4 : b < 0xF0
            · rw [if_pos h4] at h
              match rest with
              | [] => exact absurd h (by simp)
              | [b1] => exact absurd h (by simp)
              | b1 :: b2 :: rest3 =>
                simp only at h
                by_cases hc1 : isCont b1 && isCont b2
                · rw [if_pos hc1] at h
                  by_cases hr :
                      decide (0x800 ≤ (b - 0xE0) * 4096 + (b1 - 0x80) * 64 + (b2 - 0x80)) &&
                        !(decide (0xD800 ≤ (b - 0xE0) * 4096 + (b1 - 0x80) * 64 + (b2 - 0x80)) &&
                          decide ((b - 0xE0) * 4096 + (b1 - 0x80) * 64 + (b2 - 0x80) < 0xE000))
                  · rw [if_pos hr, Option.map_eq_some'] at h
                    obtain ⟨cs1, hd, rfl⟩ := h
                    obtain ⟨he, hv⟩ := ih rest3 cs1 hd
                    have hb12 : 0x80 ≤ b1 ∧ b1 < 0xC0 ∧ 0x80 ≤ b2 ∧ b2 < 0xC0 := by
                      simp only [isCont, Bool.and_eq_true, decide_eq_true_eq] at hc1
                      omega
                    have hrange :
                        0x800 ≤ (b - 0xE0) * 4096 + (b1 - 0x80) * 64 + (b2 - 0x80) ∧
                          ¬(0xD800 ≤ (b - 0xE0) * 4096 + (b1 - 0x80) * 64 + (b2 - 0x80) ∧
                            (b - 0xE0) * 4096 + (b1 - 0x80) * 64 + (b2 - 0x80) < 0xE000) := by
                      simp only [Bool.and_eq_true, Bool.not_eq_true', Bool.and_eq_false_iff,
                        decide_eq_true_eq, decide_eq_false_iff_not] at hr
                      omega
                    refine ⟨?_, ?_⟩
                    · rw [utf8Encode_cons, he]
                      have hch :
                          encodeChar ((b - 0xE0) * 4096 + (b1 - 0x80) * 64 + (b2 - 0x80)) =
                            [b, b1, b2] := by
                        rw [encodeChar, if_neg (by omega), if_neg (by omega), if_pos (by omega)]
                        have e1 :
                            ((b - 0xE0) * 4096 + (b1 - 0x80) * 64 + (b2 - 0x80)) / 4096 =
                              b - 0xE0 := by omega
                        have e2 :
                            ((b - 0xE0) * 4096 + (b1 - 0x80) * 64 + (b2 - 0x80)) / 64 % 64 =
                              b1 - 0x80 := by omega
                        have e3 :
                            ((b - 0xE0) * 4096 + (b1 - 0x80) * 64 + (b2 - 0x80)) % 64 =
                              b2 - 0x80 := by omega
                        rw [e1, e2, e3]
                        simp only [List.cons.injEq, and_true]
                        omega
                      rw [hch]
                      rfl
                    · simp only [validStr, List.all_cons] at hv ⊢
                      rw [hv]
                      simp [scalarValue]
                      omega
                  · rw [if_neg hr] at h
                    exact absurd h (by simp)
                · rw [if_neg hc1] at h
                  exact absurd h (by simp)
            · rw [if_neg h4] at h
              by_cases h5 : b < 0xF5
              · rw [if_pos h5] at h
                match rest with
                | [] => exact absurd h (by simp)
                | [b1] => exact absurd h (by simp)
                | [b1, b2] => exact absurd h (by simp)
                | b1 :: b2 :: b3 :: rest4 =>
                  simp only at h
                  by_cases hc1 : isCont b1 && isCont b2 && isCont b3
                  · rw [if_pos hc1] at h
                    by_cases hr :
                        decide (0x10000 ≤ (b - 0xF0) * 262144 + (b1 - 0x80) * 4096 +
                            (b2 - 0x80) * 64 + (b3 - 0x80)) &&
                          decide ((b - 0xF0) * 262144 + (b1 - 0x80) * 4096 +
                            (b2 - 0x80) * 64 + (b3 - 0x80) ≤ 0x10FFFF)
                    · rw [if_pos hr, Option.map_eq_some'] at h
                      obtain ⟨cs1, hd, rfl⟩ := h
                      obtain ⟨he, hv⟩ := ih rest4 cs1 hd
                      have hb123 : 0x80 ≤ b1 ∧ b1 < 0xC0 ∧ 0x80 ≤ b2 ∧ b2 < 0xC0 ∧
                          0x80 ≤ b3 ∧ b3 < 0xC0 := by
                        simp only [isCont, Bool.and_eq_true, decide_eq_true_eq] at hc1
                        omega
                      have hrange :
                          0x10000 ≤ (b - 0xF0) * 262144 + (b1 - 0x80) * 4096 +
                              (b2 - 0x80) * 64 + (b3 - 0x80) ∧
                            (b - 0xF0) * 262144 + (b1 - 0x80) * 4096 +
                              (b2 - 0x80) * 64 + (b3 - 0x80) ≤ 0x10FFFF := by
                        simp only [Bool.and_eq_true, decide_eq_true_eq] at hr
                        omega
                      refine ⟨?_, ?_⟩
                      · rw [utf8Encode_cons, he]
                        have hch :
                            encodeChar ((b - 0xF0) * 262144 + (b1 - 0x80) * 4096 +
                                (b2 - 0x80) * 64 + (b3 - 0x80)) = [b, b1, b2, b3] := by
                          rw [encodeChar, if_neg (by omega), if_neg (by omega),
                            if_neg (by omega)]
                          have e1 :
                              ((b - 0xF0) * 262144 + (b1 - 0x80) * 4096 +
                                (b2 - 0x80) * 64 + (b3 - 0x80)) / 262144 = b - 0xF0 := by
                            omega
                          have e2 :
                              ((b - 0xF0) * 262144 + (b1 - 0x80) * 4096 +
                                (b2 - 0x80) * 64 + (b3 - 0x80)) / 4096 % 64 = b1 - 0x80 := by
                            omega
                          have e3 :
                              ((b - 0xF0) * 262144 + (b1 - 0x80) * 4096 +
                                (b2 - 0x80) * 64 + (b3 - 0x80)) / 64 % 64 = b2 - 0x80 := by
                            omega
                          have e4 :
                              ((b - 0xF0) * 262144 + (b1 - 0x80) * 4096 +
                                (b2 - 0x80) * 64 + (b3 - 0x80)) % 64 = b3 - 0x80 := by
                            omega
                          rw [e1, e2, e3, e4]
                          simp only [List.cons.injEq, and_true]
                          omega
                        rw [hch]
                        rfl
                      · simp only [validStr, List.all_cons] at hv ⊢
                        rw [hv]
                        simp [scalarValue]
                        omega
                    · rw [if_neg hr] at h
                      exact absurd h (by simp)
                  · rw [if_neg hc1] at h
                    exact absurd h (by simp)
              · rw [if_neg h5] at h
                exact absurd h (by simp)

/-- Soundness of `utf8Decode` itself. -/
theorem utf8Decode_sound (bs : Bytes) (cs : List Nat)
    (h : utf8Decode bs = some cs) : utf8Encode cs = bs ∧ validStr cs = true :=
  utf8DecodeAux_sound bs.length bs cs h

/-- One lowercase hexadecimal digit, as a code point: 0-9 then a-f. -/
def hexDigitChar (n : Nat) : Nat := if n < 10 then 48 + n else 87 + n

/-- `hashlib` digest `.hexdigest()`: two lowercase hex digits per byte. -/
def hexdigest (bs : Bytes) : PyStr :=
  bs.flatMap (fun b => [hexDigitChar (b / 16), hexDigitChar (b % 16)])

/-- The part of the string after the first "=" (code point 61); models
`s.split("=", 1)[1]` on a string that contains "=". -/
def afterFirstEq : PyStr → PyStr
  | [] => []
  | c :: rest => if c = 61 then rest else afterFirstEq rest

/-- The signature actually compared: `"_, provided = signature.split("=", 1)"`
when "=" occurs in the header, the whole header otherwise. -/
def stripVersion (sig : PyStr) : PyStr :=
  if 61 ∈ sig then afterFirstEq sig else sig

theorem hexDigitChar_inj (m n : Nat) (h : hexDigitChar m = hexDigitChar n) :
    m = n := by
  unfold hexDigitChar at h
  split_ifs at h <;> omega

theorem hexdigest_inj : ∀ xs ys : Bytes, hexdigest xs = hexdigest ys → xs = ys := by
  intro xs
  induction xs with
  | nil =>
    intro ys h
    cases ys with
    | nil => rfl
    | cons y ys => simp [hexdigest] at h
  | cons x xs ih =>
    intro ys h
    cases ys with
    | nil => simp [hexdigest] at h
    | cons y ys =>
      simp only [hexdigest, List.flatMap_cons, List.cons_append, List.nil_append,
        List.cons.injEq] at h
      obtain ⟨h1, h2, h3⟩ := h
      have e1 := hexDigitChar_inj _ _ h1
      have e2 := hexDigitChar_inj _ _ h2
      have exy : x = y := by omega
      rw [exy, ih ys h3]

theorem eq_char_not_mem_hexdigest (bs : Bytes) : (61 : Nat) ∉ hexdigest bs := by
  induction bs with
  | nil => simp [hexdigest]
  | cons b bs ih =>
    simp only [hexdigest, List.flatMap_cons, List.cons_append, List.nil_append,
      List.mem_cons] at ih ⊢
    push_neg
    refine ⟨?_, ?_, ?_⟩
    · unfold hexDigitChar
      split_ifs <;> omega
    · unfold hexDigitChar
      split_ifs <;> omega
    · intro hmem
      exact ih hmem

theorem stripVersion_hexdigest (bs : Bytes) :
    stripVersion (hexdigest bs) = hexdigest bs := by
  rw [stripVersion, if_neg (eq_char_not_mem_hexdigest bs)]

theorem stripVersion_no_eq_char (s : PyStr) (h : (61 : Nat) ∉ s) :
    stripVersion s = s := by
  rw [stripVersion, if_neg h]

theorem stripVersion_v1 (hex : PyStr) :
    stripVersion (118 :: 49 :: 61 :: hex) = hex := by
  rw [stripVersion, if_pos (by simp)]
  simp [afterFirstEq]

/-- `WebhookHandler.verify_signature` (webhooks.py, lines 24-42).
`hmacSha256 key msg` stands for the digest bytes of
`hmac.new(key, msg, hashlib.sha256).digest()`; the repository code only
ever hex-encodes its result.  The three `Option` failures are the
exceptions CPython can raise inside the `try` block (UnicodeDecodeError
on the payload, UnicodeEncodeError on the secret or the composed
message); the bare `except Exception` turns each into `False`.
`hmac.compare_digest` on equal-type arguments is content equality; its
TypeError on a non-ASCII `provided` cannot change the result, because
`expected` is pure ASCII, so a non-ASCII `provided` compares unequal
either way. -/
def verify_signature (hmacSha256 : Bytes → Bytes → Bytes) (secret : PyStr)
    (payload : Bytes) (signature : PyStr) (timestamp : PyStr) : Bool :=
  match utf8Decode payload with
  | none => false
  | some decoded =>
    match utf8EncodeStrict secret with
    | none => false
    | some secretBytes =>
      match utf8EncodeStrict (timestamp ++ 46 :: decoded) with
      | none => false
      | some msgBytes =>
        let expected := hexdigest (hmacSha256 secretBytes msgBytes)
        let provided := stripVersion signature
        provided == expected

theorem verify_signature_eq (hmacSha256 : Bytes → Bytes → Bytes) (secret : PyStr)
    (payload : Bytes) (signature timestamp : PyStr) (cs : List Nat)
    (hs : validStr secret = true) (ht : validStr timestamp = true)
    (hp : utf8Decode payload = some cs) :
    verify_signature hmacSha256 secret payload signature timestamp =
      (stripVersion signature ==
        hexdigest (hmacSha256 (utf8Encode secret)
          (utf8Encode timestamp ++ 46 :: payload))) := by
  obtain ⟨he, hv⟩ := utf8Decode_sound payload cs hp
  have h46 : encodeChar 46 = [46] := by decide
  have hvmsg : validStr (timestamp ++ 46 :: cs) = true := by
    simp only [validStr, List.all_append, List.all_cons] at ht hv ⊢
    rw [ht, hv]
    decide
  have hmsg : utf8Encode (timestamp ++ 46 :: cs) =
      utf8Encode timestamp ++ 46 :: payload := by
    show (timestamp ++ 46 :: cs).flatMap encodeChar = _
    rw [List.flatMap_append, List.flatMap_cons, h46]
    show utf8Encode timestamp ++ ([46] ++ utf8Encode cs) = _
    rw [he]
    rfl
  have e1 : utf8EncodeStrict secret = some (utf8Encode secret) := by
    simp [utf8EncodeStrict, hs]
  have e2 : utf8EncodeStrict (timestamp ++ 46 :: cs) =
      some (utf8Encode timestamp ++ 46 :: payload) := by
    simp [utf8EncodeStrict, hvmsg, hmsg]
  simp only [verify_signature, hp, e1, e2]

/-- C1: for every secret, timestamp and raw body bytes (the body decodable
as UTF-8, the secret and timestamp encodable, which is the domain on which
the documented HMAC construction is defined; outside it the function falls
into its exception branch, settled separately), `verify_signature` returns
true exactly when the part of the signature after the first "=" (or the
whole signature when it has no "=") equals the lowercase hex encoding of
HMAC-SHA256 keyed by the UTF-8 bytes of the secret over the UTF-8 bytes of
timestamp + "." + body; consequently it returns true for a signature
computed by that exact construction, the forms "v1=hex" and bare "hex"
give identical results, and any mutation of body, timestamp or secret
whose HMAC digest differs from the original one is rejected. -/
theorem verify_signature_characterization
    (hmacSha256 : Bytes → Bytes → Bytes) (secret timestamp : PyStr)
    (payload : Bytes) (signature : PyStr) (cs : List Nat)
    (hs : validStr secret = true) (ht : validStr timestamp = true)
    (hp : utf8Decode payload = some cs) :
    (verify_signature hmacSha256 secret payload signature timestamp = true ↔
      stripVersion signature =
        hexdigest (hmacSha256 (utf8Encode secret)
          (utf8Encode timestamp ++ 46 :: payload))) ∧
    verify_signature hmacSha256 secret payload
        (hexdigest (hmacSha256 (utf8Encode secret)
          (utf8Encode timestamp ++ 46 :: payload))) timestamp = true ∧
    (∀ hex : PyStr, (61 : Nat) ∉ hex →
      verify_signature hmacSha256 secret payload (118 :: 49 :: 61 :: hex) timestamp =
        verify_signature hmacSha256 secret payload hex timestamp) ∧
    (∀ secret2 timestamp2 : PyStr, ∀ payload2 : Bytes, ∀ cs2 : List Nat,
      validStr secret2 = true → validStr timestamp2 = true →
      utf8Decode payload2 = some cs2 →
      hmacSha256 (utf8Encode secret2) (utf8Encode timestamp2 ++ 46 :: payload2) ≠
        hmacSha256 (utf8Encode secret) (utf8Encode timestamp ++ 46 :: payload) →
      verify_signature hmacSha256 secret2 payload2
        (hexdigest (hmacSha256 (utf8Encode secret)
          (utf8Encode timestamp ++ 46 :: payload))) timestamp2 = false) := by
  refine ⟨?_, ?_, ?_, ?_⟩
  · rw [verify_signature_eq hmacSha256 secret payload signature timestamp cs hs ht hp]
    exact beq_iff_eq
  · rw [verify_signature_eq hmacSha256 secret payload _ timestamp cs hs ht hp,
      stripVersion_hexdigest]
    exact beq_self_eq_true _
  · intro hex hnem
    rw [verify_signature_eq hmacSha256 secret payload _ timestamp cs hs ht hp,
      verify_signature_eq hmacSha256 secret payload hex timestamp cs hs ht hp,
      stripVersion_v1, stripVersion_no_eq_char hex hnem]
  · intro secret2 timestamp2 payload2 cs2 hs2 ht2 hp2 hne
    rw [verify_signature_eq hmacSha256 secret2 payload2 _ timestamp2 cs2 hs2 ht2 hp2,
      stripVersion_hexdigest]
    rw [beq_eq_false_iff_ne]
    intro hcontra
    exact hne (hexdigest_inj _ _ hcontra.symm)

theorem verify_signature_characterization_witness :
    verify_signature (fun _ _ => [0]) [] [] [48, 48] [] = true :=
  ((verify_signature_characterization (fun _ _ => [0]) [] [] [] [48, 48] []
    rfl rfl rfl).1).mpr (by decide)

/-- C6: `verify_signature` is total (it is a Lean function into `Bool`, so
it always returns a boolean and never raises); every internal exception
path of the Python code yields `false`: a payload that is not valid UTF-8
(UnicodeDecodeError), a secret that cannot be UTF-8-encoded, or a
timestamp that cannot be UTF-8-encoded (UnicodeEncodeError). -/
theorem verify_signature_total
    (hmacSha256 : Bytes → Bytes → Bytes) (secret : PyStr) (payload : Bytes)
    (signature timestamp : PyStr) :
    (utf8Decode payload = none →
      verify_signature hmacSha256 secret payload signature timestamp = false) ∧
    (validStr secret = false →
      verify_signature hmacSha256 secret payload signature timestamp = false) ∧
    (validStr timestamp = false →
      verify_signature hmacSha256 secret payload signature timestamp = false) := by
  refine ⟨?_, ?_, ?_⟩
  · intro h
    simp [verify_signature, h]
  · intro h
    cases hdec : utf8Decode payload with
    | none => simp [verify_signature, hdec]
    | some cs =>
      have : utf8EncodeStrict secret = none := by
        simp [utf8EncodeStrict, h]
      simp [verify_signature, hdec, this]
  · intro h
    cases hdec : utf8Decode payload with
    | none => simp [verify_signature, hdec]
    | some cs =>
      cases hsec : utf8EncodeStrict secret with
      | none => simp [verify_signature, hdec, hsec]
      | some sb =>
        have : utf8EncodeStrict (timestamp ++ 46 :: cs) = none := by
          simp only [utf8EncodeStrict, validStr, List.all_append]
          simp only [validStr] at h
          rw [h]
          rfl
        simp [verify_signature, hdec, hsec, this]

theorem verify_signature_total_witness :
    verify_signature (fun _ _ => [0]) [] [255] [48, 48] [] = false :=
  (verify_signature_total (fun _ _ => [0]) [] [255] [48, 48] []).1 (by decide)

/-- Result dictionary of webhook dispatch:
`error msg` is the dict with key "error" holding msg;
`success r` is the dict with "success": True and "result": r;
`noHandler` is the dict with "success": True and
"message": "No handler for event". -/
inductive DispatchResult (R : Type) where
  | error (msg : String)
  | success (result : R)
  | noHandler
deriving DecidableEq

/-- A registered handler: called on the parsed JSON payload, it either
returns a value normally (`Except.ok`) or raises an exception whose
stringified message is the `Except.error` payload. -/
abbrev Handler (J R : Type) := J → Except String R

/-- `WebhookHandler.on` (webhooks.py, lines 19-22):
`self.handlers[event] = handler`.  The handler dict is modelled by its
lookup function; this is the only operation of the class that changes it.
(The source method is named `on`, a reserved word in Lean.) -/
def onEvent {J R : Type} (handlers : PyStr → Option (Handler J R)) (event : PyStr)
    (handler : Handler J R) : PyStr → Option (Handler J R) :=
  fun e => if e = event then some handler else handlers e

/-- Python truthiness of one header value, as tested by
`not all([signature, timestamp, event])`: `None` and the empty string
are falsy, every other string is truthy. -/
def truthy (v : Option PyStr) : Bool :=
  match v with
  | none => false
  | some s => !s.isEmpty

/-- What `json.loads` does on a bytes body: return a parsed value, raise
a `json.JSONDecodeError` (the only exception the dispatch code catches),
or raise some other exception that the `except json.JSONDecodeError`
clause does not catch.  The last case is real: on bytes input
`json.loads` first runs `json.detect_encoding`, which classifies
NUL-patterned bodies as UTF-16 or UTF-32 - for example b"\x00abcd" is
valid UTF-8 (so it passes signature verification) yet is detected as
utf-16-be, and decoding it raises UnicodeDecodeError. -/
inductive JsonLoads (J : Type) where
  | ok (value : J)
  | decodeError
  | uncaught

/-- What one dispatch call does: return a result dict, or let an
exception raised by `json.loads` escape (nothing in `handle_raw` or
`handle` catches anything but `json.JSONDecodeError` and the handler's
own exceptions). -/
inductive DispatchOutcome (R : Type) where
  | returns (result : DispatchResult R)
  | raises
deriving DecidableEq

/-- `WebhookHandler.handle_raw` (webhooks.py, lines 78-103).
`jsonLoads` stands for `json.loads` on the body bytes.  The first guard
is `if not all([signature, timestamp, event])`, which fires when any of
the three values is `None` or the empty string; a JSONDecodeError from
the parse is caught and answered with the "Invalid JSON payload" dict,
while any other exception from `json.loads` propagates out of the
method. -/
def handle_raw {J R : Type} (hmacSha256 : Bytes → Bytes → Bytes)
    (jsonLoads : Bytes → JsonLoads J) (secret : PyStr)
    (handlers : PyStr → Option (Handler J R))
    (headers : String → Option PyStr) (body : Bytes) : DispatchOutcome R :=
  match headers "X-TRM-Signature", headers "X-TRM-Timestamp", headers "X-TRM-Event" with
  | some sig, some ts, some ev =>
    if sig.isEmpty || ts.isEmpty || ev.isEmpty then
      .returns (.error "Missing required headers")
    else if !verify_signature hmacSha256 secret body sig ts then
      .returns (.error "Invalid signature")
    else
      match jsonLoads body with
      | .decodeError => .returns (.error "Invalid JSON payload")
      | .uncaught => .raises
      | .ok d =>
        match handlers ev with
        | some handler =>
          match handler d with
          | .ok r => .returns (.success r)
          | .error msg => .returns (.error msg)
        | none => .returns .noHandler
  | _, _, _ => .returns (.error "Missing required headers")

/-- A Flask request, as consumed by `WebhookHandler.handle`:
`headersGet k` is `request.headers.get(k)` and `getData` is
`request.get_data()`. -/
structure Request where
  headersGet : String → Option PyStr
  getData : Bytes

/-- `WebhookHandler.handle` (webhooks.py, lines 44-76): the same logic as
`handle_raw`, duplicated in the source over a Flask request object,
including the same exception behavior at the `json.loads` call. -/
def handle {J R : Type} (hmacSha256 : Bytes → Bytes → Bytes)
    (jsonLoads : Bytes → JsonLoads J) (secret : PyStr)
    (handlers : PyStr → Option (Handler J R))
    (request : Request) : DispatchOutcome R :=
  match request.headersGet "X-TRM-Signature", request.headersGet "X-TRM-Timestamp",
      request.headersGet "X-TRM-Event" with
  | some sig, some ts, some ev =>
    if sig.isEmpty || ts.isEmpty || ev.isEmpty then
      .returns (.error "Missing required headers")
    else if !verify_signature hmacSha256 secret request.getData sig ts then
      .returns (.error "Invalid signature")
    else
      match jsonLoads request.getData with
      | .decodeError => .returns (.error "Invalid JSON payload")
      | .uncaught => .raises
      | .ok d =>
        match handlers ev with
        | some handler =>
          match handler d with
          | .ok r => .returns (.success r)
          | .error msg => .returns (.error msg)
        | none => .returns .noHandler
  | _, _, _ => .returns (.error "Missing required headers")

/-- Headers for the counterexample to claim C2 as literally stated: all
three headers are present, but the timestamp header is the empty string. -/
def cexHeaders : String → Option PyStr := fun k =>
  if k = "X-TRM-Signature" then some [120]
  else if k = "X-TRM-Timestamp" then some []
  else if k = "X-TRM-Event" then some [101] else none

/-- C2 counterexample: with every header present but the timestamp header
equal to the empty string, no header is missing and the signature check
fails, so the claim as stated demands the result "Invalid signature";
the code instead answers "Missing required headers", because the guard
`not all([signature, timestamp, event])` also fires on present-but-empty
(falsy) header values. -/
theorem handle_raw_order_counterexample :
    cexHeaders "X-TRM-Signature" = some [120] ∧
    cexHeaders "X-TRM-Timestamp" = some [] ∧
    cexHeaders "X-TRM-Event" = some [101] ∧
    verify_signature (fun _ _ => [0]) [] [] [120] [] = false ∧
    @handle_raw Unit Unit (fun _ _ => [0]) (fun _ => .decodeError) [] (fun _ => none)
      cexHeaders [] = .returns (.error "Missing required headers") ∧
    @handle_raw Unit Unit (fun _ _ => [0]) (fun _ => .decodeError) [] (fun _ => none)
      cexHeaders [] ≠ .returns (.error "Invalid signature") := by
  exact ⟨rfl, rfl, rfl, by decide, rfl, by decide⟩

/-- C2 amended: dispatch performs its checks in the fixed order
headers, then signature, then JSON parse, then handler lookup, where the
headers check fires when any of the three header values is missing OR
present but empty (Python falsiness); when all three are present and
non-empty: a failed signature check gives "Invalid signature" no matter
what `json.loads` would do on the body, then a body on which
`json.loads` raises a JSONDecodeError gives "Invalid JSON payload",
while a body on which `json.loads` raises any other exception (the
UnicodeDecodeError of NUL-patterned valid-UTF-8 bodies) makes dispatch
itself raise, and then a missing handler gives the success result with
message "No handler for event". -/
theorem handle_raw_check_order {J R : Type} (hmacSha256 : Bytes → Bytes → Bytes)
    (jsonLoads : Bytes → JsonLoads J) (secret : PyStr)
    (handlers : PyStr → Option (Handler J R))
    (headers : String → Option PyStr) (body : Bytes) :
    (¬(truthy (headers "X-TRM-Signature") = true ∧
        truthy (headers "X-TRM-Timestamp") = true ∧
        truthy (headers "X-TRM-Event") = true) →
      handle_raw hmacSha256 jsonLoads secret handlers headers body =
        .returns (.error "Missing required headers")) ∧
    (∀ sig ts ev : PyStr,
      headers "X-TRM-Signature" = some sig →
      headers "X-TRM-Timestamp" = some ts →
      headers "X-TRM-Event" = some ev →
      sig ≠ [] → ts ≠ [] → ev ≠ [] →
      (verify_signature hmacSha256 secret body sig ts = false →
        handle_raw hmacSha256 jsonLoads secret handlers headers body =
          .returns (.error "Invalid signature")) ∧
      (verify_signature hmacSha256 secret body sig ts = true →
        jsonLoads body = .decodeError →
        handle_raw hmacSha256 jsonLoads secret handlers headers body =
          .returns (.error "Invalid JSON payload")) ∧
      (verify_signature hmacSha256 secret body sig ts = true →
        jsonLoads body = .uncaught →
        handle_raw hmacSha256 jsonLoads secret handlers headers body = .raises) ∧
      (∀ d : J, verify_signature hmacSha256 secret body sig ts = true →
        jsonLoads body = .ok d → handlers ev = none →
        handle_raw hmacSha256 jsonLoads secret handlers headers body =
          .returns .noHandler)) := by
  constructor
  · intro hfalsy
    cases hsig : headers "X-TRM-Signature" with
    | none => simp [handle_raw, hsig]
    | some sig =>
      cases hts : headers "X-TRM-Timestamp" with
      | none => simp [handle_raw, hsig, hts]
      | some ts =>
        cases hev : headers "X-TRM-Event" with
        | none => simp [handle_raw, hsig, hts, hev]
        | some ev =>
          rw [hsig, hts, hev] at hfalsy
          simp only [truthy, Bool.not_eq_true', not_and] at hfalsy
          simp only [handle_raw, hsig, hts, hev]
          by_cases h1 : sig.isEmpty
          · rw [if_pos (by rw [h1]; rfl)]
          · by_cases h2 : ts.isEmpty
            · rw [if_pos (by rw [h2]; simp)]
            · have h3 : ev.isEmpty = true := by
                have := hfalsy (by simp [h1]) (by simp [h2])
                simpa using this
              rw [if_pos (by rw [h3]; simp)]
  · intro sig ts ev hsig hts hev hne1 hne2 hne3
    have e1 : sig.isEmpty = false := by
      cases sig with
      | nil => exact absurd rfl hne1
      | cons a l => rfl
    have e2 : ts.isEmpty = false := by
      cases ts with
      | nil => exact absurd rfl hne2
      | cons a l => rfl
    have e3 : ev.isEmpty = false := by
      cases ev with
      | nil => exact absurd rfl hne3
      | cons a l => rfl
    refine ⟨?_, ?_, ?_, ?_⟩
    · intro hv
      simp [handle_raw, hsig, hts, hev, e1, e2, e3, hv]
    · intro hv hj
      simp [handle_raw, hsig, hts, hev, e1, e2, e3, hv, hj]
    · intro hv hj
      simp [handle_raw, hsig, hts, hev, e1, e2, e3, hv, hj]
    · intro d hv hj hh
      simp [handle_raw, hsig, hts, hev, e1, e2, e3, hv, hj, hh]

theorem handle_raw_check_order_witness :
    @handle_raw Unit Unit (fun _ _ => [0]) (fun _ => .decodeError) [] (fun _ => none)
      (fun _ => none) [] = .returns (.error "Missing required headers") :=
  (@handle_raw_check_order Unit Unit (fun _ _ => [0]) (fun _ => .decodeError) []
    (fun _ => none) (fun _ => none) []).1 (by decide)

/-- Headers for the counterexample to claim C5 as literally stated: all
three headers present and non-empty, with a signature that verifies. -/
def cexHeadersRaise : String → Option PyStr := fun k =>
  if k = "X-TRM-Event" then some [101]
  else if k = "X-TRM-Timestamp" then some [49] else some [48, 48]

/-- C5 counterexample: dispatch can raise.  The body [0, 97, 98, 99, 100]
is b"\x00abcd": valid UTF-8, so the signature check passes (here with
the HMAC oracle fixed at digest [0] and the matching signature "00"),
but `json.loads` on it raises UnicodeDecodeError (json.detect_encoding
classifies the NUL-prefixed bytes as utf-16-be), an exception the
`except json.JSONDecodeError` clause does not catch - here the
`jsonLoads` instance maps every body to that uncaught outcome.  So
dispatch propagates an exception instead of returning a structured
error dict, refuting the sentence that dispatch itself never raises. -/
theorem handle_raw_raises_counterexample :
    cexHeadersRaise "X-TRM-Signature" = some [48, 48] ∧
    cexHeadersRaise "X-TRM-Timestamp" = some [49] ∧
    cexHeadersRaise "X-TRM-Event" = some [101] ∧
    verify_signature (fun _ _ => [0]) [] [0, 97, 98, 99, 100] [48, 48] [49] = true ∧
    @handle_raw Unit Unit (fun _ _ => [0]) (fun _ => .uncaught) [] (fun _ => none)
      cexHeadersRaise [0, 97, 98, 99, 100] = .raises := by
  exact ⟨rfl, rfl, rfl, by decide, rfl⟩

/-- C5 amended: when dispatch reaches handler invocation (headers
present and non-empty, signature valid, body parsed, a handler
registered for the event), a handler that raises an exception with
message msg yields the structured result with "error": msg, and a
handler returning r normally yields "success": True with "result": r -
a failure of the handler is never propagated as a failure of dispatch;
and the only way dispatch itself raises is the `json.loads` call
raising an exception other than JSONDecodeError (for example the
UnicodeDecodeError on NUL-patterned valid-UTF-8 bodies). -/
theorem handle_raw_handler_isolation {J R : Type}
    (hmacSha256 : Bytes → Bytes → Bytes) (jsonLoads : Bytes → JsonLoads J)
    (secret : PyStr) (handlers : PyStr → Option (Handler J R))
    (headers : String → Option PyStr) (body : Bytes) :
    (∀ sig ts ev : PyStr,
      headers "X-TRM-Signature" = some sig →
      headers "X-TRM-Timestamp" = some ts →
      headers "X-TRM-Event" = some ev →
      sig ≠ [] → ts ≠ [] → ev ≠ [] →
      verify_signature hmacSha256 secret body sig ts = true →
      ∀ d : J, jsonLoads body = .ok d →
      ∀ handler : Handler J R, handlers ev = some handler →
      (∀ msg : String, handler d = .error msg →
        handle_raw hmacSha256 jsonLoads secret handlers headers body =
          .returns (.error msg)) ∧
      (∀ r : R, handler d = .ok r →
        handle_raw hmacSha256 jsonLoads secret handlers headers body =
          .returns (.success r))) ∧
    (handle_raw hmacSha256 jsonLoads secret handlers headers body = .raises →
      jsonLoads body = .uncaught) := by
  constructor
  · intro sig ts ev hsig hts hev hne1 hne2 hne3 hv d hj handler hh
    have e1 : sig.isEmpty = false := by
      cases sig with
      | nil => exact absurd rfl hne1
      | cons a l => rfl
    have e2 : ts.isEmpty = false := by
      cases ts with
      | nil => exact absurd rfl hne2
      | cons a l => rfl
    have e3 : ev.isEmpty = false := by
      cases ev with
      | nil => exact absurd rfl hne3
      | cons a l => rfl
    constructor
    · intro msg hmsg
      simp [handle_raw, hsig, hts, hev, e1, e2, e3, hv, hj, hh, hmsg]
    · intro r hr
      simp [handle_raw, hsig, hts, hev, e1, e2, e3, hv, hj, hh, hr]
  · intro hr
    cases hsig : headers "X-TRM-Signature" with
    | none => simp [handle_raw, hsig] at hr
    | some sig =>
      cases hts : headers "X-TRM-Timestamp" with
      | none => simp [handle_raw, hsig, hts] at hr
      | some ts =>
        cases hev : headers "X-TRM-Event" with
        | none => simp [handle_raw, hsig, hts, hev] at hr
        | some ev =>
          simp only [handle_raw, hsig, hts, hev] at hr
          by_cases hemp : (sig.isEmpty || ts.isEmpty || ev.isEmpty) = true
          · rw [if_pos hemp] at hr
            exact absurd hr (by simp)
          · rw [if_neg hemp] at hr
            by_cases hv : verify_signature hmacSha256 secret body sig ts
            · rw [hv] at hr
              simp only [Bool.not_true, Bool.false_eq_true, if_false] at hr
              cases hj : jsonLoads body with
              | decodeError => simp [hj] at hr
              | uncaught => rfl
              | ok d =>
                rw [hj] at hr
                simp only at hr
                cases hh : handlers ev with
                | none => simp [hh] at hr
                | some handler =>
                  rw [hh] at hr
                  simp only at hr
                  cases hd : handler d with
                  | ok r => simp [hd] at hr
                  | error msg => simp [hd] at hr
            · have hv2 : verify_signature hmacSha256 secret body sig ts = false := by
                simpa using hv
              rw [hv2] at hr
              exact absurd hr (by simp)

theorem handle_raw_handler_isolation_witness :
    @handle_raw Unit Unit (fun _ _ => [0]) (fun _ => .ok ()) []
      (fun _ => some (fun _ => Except.error "boom"))
      (fun k => if k = "X-TRM-Event" then some [101]
        else if k = "X-TRM-Timestamp" then some [49] else some [48, 48]) [] =
      .returns (.error "boom") :=
  ((handle_raw_handler_isolation (fun _ _ => [0]) (fun _ => .ok ()) []
    (fun _ => some (fun _ => Except.error "boom"))
    (fun k => if k = "X-TRM-Event" then some [101]
      else if k = "X-TRM-Timestamp" then some [49] else some [48, 48]) []).1
    [48, 48] [49] [101] rfl rfl rfl (by decide) (by decide) (by decide)
    (by decide) () rfl (fun _ => Except.error "boom") rfl).1 "boom" rfl

/-- C9: registration binds exactly the given event name to the given
handler, overwriting any previous binding for that name (last write
wins), and leaves every other event name bound as before; the registry
maps each event name to at most one handler by construction (it is a
function into `Option`), and `onEvent` is the only registry-changing
operation in the embedded class. -/
theorem onEvent_registry {J R : Type} (handlers : PyStr → Option (Handler J R))
    (event : PyStr) (handler : Handler J R) :
    onEvent handlers event handler event = some handler ∧
    (∀ e : PyStr, e ≠ event → onEvent handlers event handler e = handlers e) := by
  constructor
  · simp [onEvent]
  · intro e hne
    simp [onEvent, hne]

theorem onEvent_registry_witness :
    @onEvent Unit Unit (fun _ => none) [97] (fun _ => Except.ok ()) [98] = none :=
  (@onEvent_registry Unit Unit (fun _ => none) [97] (fun _ => Except.ok ())).2
    [98] (by decide)

/-- C10: the two dispatch entry points are equivalent: whenever the
header lookup of the Flask request agrees with the raw header mapping on
the three X-TRM header names and the request raw data equals the raw
body, `handle` returns exactly what `handle_raw` returns. -/
theorem handle_eq_handle_raw {J R : Type} (hmacSha256 : Bytes → Bytes → Bytes)
    (jsonLoads : Bytes → JsonLoads J) (secret : PyStr)
    (handlers : PyStr → Option (Handler J R)) (request : Request)
    (headers : String → Option PyStr) (body : Bytes)
    (h1 : request.headersGet "X-TRM-Signature" = headers "X-TRM-Signature")
    (h2 : request.headersGet "X-TRM-Timestamp" = headers "X-TRM-Timestamp")
    (h3 : request.headersGet "X-TRM-Event" = headers "X-TRM-Event")
    (hb : request.getData = body) :
    handle hmacSha256 jsonLoads secret handlers request =
      handle_raw hmacSha256 jsonLoads secret handlers headers body := by
  simp only [handle, handle_raw, h1, h2, h3, hb]

theorem handle_eq_handle_raw_witness :
    @handle Unit Unit (fun _ _ => [0]) (fun _ => .decodeError) [] (fun _ => none)
      ⟨fun _ => none, []⟩ =
      @handle_raw Unit Unit (fun _ _ => [0]) (fun _ => .decodeError) [] (fun _ => none)
        (fun _ => none) [] :=
  handle_eq_handle_raw (fun _ _ => [0]) (fun _ => .decodeError) [] (fun _ => none)
    ⟨fun _ => none, []⟩ (fun _ => none) [] rfl rfl rfl rfl

/-- JSON values, as produced by parsing a response body. -/
inductive Json where
  | null
  | bool (b : Bool)
  | num (n : Int)
  | str (s : String)
  | arr (elements : List Json)
  | obj (fields : List (String × Json))

/-- Key lookup among the fields of a JSON object (keys are unique in a
parsed Python dict). -/
def lookupField : List (String × Json) → String → Option Json
  | [], _ => none
  | (k, v) :: rest, key => if k = key then some v else lookupField rest key

/-- Python `d.get(key, default)` applied to a parsed JSON value:
`none` models the AttributeError CPython raises when the value is not a
dict (lists, strings, numbers and None have no `.get`). -/
def pyDictGet (j : Json) (key : String) (default : Json) : Option Json :=
  match j with
  | .obj fields =>
    match lookupField fields key with
    | some v => some v
    | none => some default
  | _ => none

/-- The data carried by a `TRMError` (client.py, lines 11-19): message,
code and type are arbitrary JSON values because the response body is
untrusted input and the code stores whatever `.get` returns. -/
structure ApiErr where
  message : Json
  code : Json
  etype : Json
  status_code : Nat
  response : Json

/-- The TRMError construction of `_request` (client.py, lines 58-64):
`response_data.get("error", {}).get("message", "API Error")` and its two
siblings.  `none` models the AttributeError raised when `response_data`,
or its "error" member, is not a dict; that exception is not a
`requests.exceptions.RequestException`, so it escapes the retry loop. -/
def buildApiErr (pd : Json) (status : Nat) : Option ApiErr :=
  match pyDictGet pd "error" (.obj []) with
  | none => none
  | some errObj =>
    match pyDictGet errObj "message" (.str "API Error"),
        pyDictGet errObj "code" (.str "unknown_error"),
        pyDictGet errObj "type" (.str "api_error") with
    | some m, some c, some t => some ⟨m, c, t, status, pd⟩
    | _, _, _ => none

/-- What one `self.session.request` call produces: a raised
`requests.exceptions.RequestException` (connection error, timeout, ...),
abstracted as a value of `T`, or an HTTP response with a status code and
raw body bytes. -/
inductive AttemptOutcome (T : Type) where
  | fail (e : T)
  | resp (status : Nat) (body : Bytes)

/-- An exception `_request` can end with: a TRMError, a transport
RequestException, the JSONDecodeError `response.json()` raises on a
non-empty unparsable body (a RequestException subclass in requests
2.27+), or the AttributeError from `.get` on a non-dict body. -/
inductive PyExc (T : Type) where
  | trm (e : ApiErr)
  | transport (e : T)
  | jsonDecode
  | attrError

/-- Result of a whole `_request` call: the returned parsed body, or the
exception it raises. -/
inductive ReqResult (T : Type) where
  | ok (v : Json)
  | raised (e : PyExc T)

/-- Evaluation of one iteration of the retry loop body (client.py,
lines 46-74): `ret v` is `return response_data`; `raiseNow e` is an
exception that leaves `_request` at once (the 4xx `raise error`, which
`except requests.exceptions.RequestException` does not catch because
TRMError is a plain Exception, or the AttributeError of the error
construction); `record e` is `last_error = ...` followed by the fall
through towards the backoff sleep. -/
inductive StepRes (T : Type) where
  | ret (v : Json)
  | raiseNow (e : PyExc T)
  | record (e : PyExc T)

/-- One loop iteration: `response_data = response.json() if
response.content else {}`, then `if not response.ok` (ok is
status < 400) build the error and raise it for 400-499 or record it
otherwise, else return the parsed body.  A transport failure and a
JSONDecodeError are caught and recorded. -/
def attemptEval {T : Type} (jsonParse : Bytes → Option Json) :
    AttemptOutcome T → StepRes T
  | .fail e => .record (.transport e)
  | .resp status body =>
    match if body.isEmpty then some (Json.obj []) else jsonParse body with
    | none => .record .jsonDecode
    | some pd =>
      if status < 400 then .ret pd
      else
        match buildApiErr pd status with
        | none => .raiseNow .attrError
        | some e =>
          if status < 500 then .raiseNow (.trm e)
          else .record (.trm e)

/-- The generic error of the final `raise last_error or TRMError(...)`
when no error was ever recorded (client.py, lines 80-82). -/
def maxRetriesErr : ApiErr :=
  ⟨.str "Max retries exceeded", .str "max_retries", .str "request_error", 0, .obj []⟩

/-- `last_error or TRMError("Max retries exceeded", ...)`: exception
objects are always truthy, and `last_error` is `None` only when the loop
body never ran. -/
def finalErr {T : Type} : Option (PyExc T) → PyExc T
  | some e => e
  | none => .trm maxRetriesErr

/-- The retry loop of `_request` starting at a given attempt index with
`remaining` attempts left and the recorded `last_error`.  Returns the
result, the number of transport calls made from this point on, and the
backoff delays slept, in order; the sleep guard
`attempt < self.max_retries - 1` is `0 < remaining` after the current
iteration is peeled off, and each delay is
`self.retry_delay * (2 ** attempt)`. -/
def runFrom {T : Type} (jsonParse : Bytes → Option Json)
    (oracle : Nat → AttemptOutcome T) (retryDelay : ℚ) :
    Nat → Nat → Option (PyExc T) → ReqResult T × Nat × List ℚ
  | 0, _, lastError => (.raised (finalErr lastError), 0, [])
  | remaining + 1, attempt, _ =>
    match attemptEval jsonParse (oracle attempt) with
    | .ret v => (.ok v, 1, [])
    | .raiseNow e => (.raised e, 1, [])
    | .record e =>
      let res := runFrom jsonParse oracle retryDelay remaining (attempt + 1) (some e)
      (res.1, res.2.1 + 1,
        if 0 < remaining then retryDelay * 2 ^ attempt :: res.2.2 else res.2.2)

/-- `TRMClient._request` (client.py, lines 39-82): run the loop
`for attempt in range(self.max_retries)` from attempt 0 with no
recorded error. -/
def runRequest {T : Type} (jsonParse : Bytes → Option Json)
    (oracle : Nat → AttemptOutcome T) (maxRetries : Nat) (retryDelay : ℚ) :
    ReqResult T × Nat × List ℚ :=
  runFrom jsonParse oracle retryDelay maxRetries 0 none

/-- C3: evaluation at the failing input.  The code comment and the spec
say client errors (400-499) are never retried, but a 400 response whose
non-empty body is not valid JSON is retried: `response.json()` raises a
requests JSONDecodeError, a RequestException subclass, which the except
clause records like a transport failure.  With status 400 and body "n"
on every attempt and max_retries = 3, retry_delay = 1, the call makes 3
transport calls (the claim demands exactly one), sleeps 1 and 2 seconds
(the claim demands no delay), and raises the JSONDecodeError rather
than a TRMError built from the response. -/
theorem runRequest_client_error_retried :
    (@runRequest Unit (fun _ => none) (fun _ => .resp 400 [110]) 3 1).1 =
        .raised .jsonDecode ∧
    (@runRequest Unit (fun _ => none) (fun _ => .resp 400 [110]) 3 1).2.1 = 3 ∧
    (@runRequest Unit (fun _ => none) (fun _ => .resp 400 [110]) 3 1).2.2 = [1, 2] := by
  refine ⟨rfl, rfl, ?_⟩
  have h : (@runRequest Unit (fun _ => none) (fun _ => .resp 400 [110]) 3 1).2.2 =
      [1 * 2 ^ 0, 1 * 2 ^ 1] := rfl
  rw [h]
  norm_num

/-- C7: an attempt whose response has a 2xx status and a body that is
empty or parses as JSON returns immediately on that attempt - the empty
object for a zero-content body, the parsed value otherwise - with one
transport call from that point, no further retry and no delay. -/
theorem runFrom_success_immediate {T : Type} (jsonParse : Bytes → Option Json)
    (oracle : Nat → AttemptOutcome T) (retryDelay : ℚ)
    (remaining attempt : Nat) (lastError : Option (PyExc T))
    (status : Nat) (body : Bytes)
    (ho : oracle attempt = .resp status body)
    (h2 : 200 ≤ status) (h3 : status < 300) :
    (body = [] →
      runFrom jsonParse oracle retryDelay (remaining + 1) attempt lastError =
        (.ok (Json.obj []), 1, [])) ∧
    (∀ v : Json, body ≠ [] → jsonParse body = some v →
      runFrom jsonParse oracle retryDelay (remaining + 1) attempt lastError =
        (.ok v, 1, [])) := by
  have h4 : status < 400 := by omega
  constructor
  · intro hb
    subst hb
    simp [runFrom, attemptEval, ho, h4]
  · intro v hb hj
    have hbe : body.isEmpty = false := by
      cases body with
      | nil => exact absurd rfl hb
      | cons a l => rfl
    simp [runFrom, attemptEval, ho, hbe, hj, h4]

theorem runFrom_success_immediate_witness :
    @runRequest Unit (fun _ => none) (fun _ => .resp 200 []) 3 1 =
      (.ok (Json.obj []), 1, []) :=
  (@runFrom_success_immediate Unit (fun _ => none) (fun _ => .resp 200 []) 1 2 0
    none 200 [] rfl (by decide) (by decide)).1 rfl
